import Mathlib

/-!
Shallow embedding of the community coordination core of the
rork-underdust-community-roadmap repository: the consciousness store,
the channel/input ledger with polls, the event scheduler with RSVPs and
the consensus engine, together with proofs of the stated properties.

JavaScript specifics are modelled explicitly: `Map.get`/`Map.set` as
association-list lookup and in-place replacement, `Array.slice` with a
negative start (including the `-0 === 0` quirk), `indexOf`/`splice` as
first-occurrence erasure, the falsiness of the empty string and of the
number 0 in `x || default`, and an out-of-bounds array element access
(which yields `undefined` and makes the subsequent property access throw
a TypeError) as an explicit crash outcome. Wall-clock time and random id
suffixes are passed as explicit parameters.
-/

namespace Underdust

/-! ### Generic JS container helpers -/

/-- `Map.get k`: first entry with the key, if any. -/
def mapGet {α : Type} (m : List (String × α)) (k : String) : Option α :=
  (m.find? (fun e => e.1 == k)).map (fun e => e.2)

/-- `Map.set k v`: replace the value of an existing key in place,
otherwise append a new entry (JS Map keeps insertion order). -/
def mapSet {α : Type} (m : List (String × α)) (k : String) (v : α) :
    List (String × α) :=
  if m.any (fun e => e.1 == k) then
    m.map (fun e => if e.1 == k then (k, v) else e)
  else m ++ [(k, v)]

/-- In-place update of the element at index `i` (`arr[i] = f(arr[i])`);
out of bounds leaves the list unchanged. -/
def updateAt {α : Type} (f : α → α) : Nat → List α → List α
  | _, [] => []
  | 0, a :: l => f a :: l
  | n + 1, a :: l => a :: updateAt f n l

/-- Mutation through the reference returned by `Array.find`: apply `f` to
the first element satisfying `p`, leave the rest unchanged. -/
def updateFirst {α : Type} (p : α → Bool) (f : α → α) : List α → List α
  | [] => []
  | a :: l => if p a then f a :: l else a :: updateFirst p f l

/-- JS `x || d` for an optional string: `undefined` and the empty string
are falsy, so both fall back to the default. -/
def strOr (s : Option String) (d : String) : String :=
  match s with
  | some v => if v = "" then d else v
  | none => d

/-- JS `x || d` for an optional number: `undefined` and `0` are falsy. -/
def numOr (n : Option Int) (d : Int) : Int :=
  match n with
  | some v => if v = 0 then d else v
  | none => d

/-- JS `x || d` for an optional numeric value modelled as a rational. -/
def ratOr (n : Option ℚ) (d : ℚ) : ℚ :=
  match n with
  | some v => if v = 0 then d else v
  | none => d

/-- JS `arr.slice(-limit)`: the last `limit` elements; for `limit = 0`
the start index `-0` equals `0`, so the WHOLE array is returned. -/
def sliceLast {α : Type} (l : List α) (limit : Nat) : List α :=
  if limit = 0 then l else l.drop (l.length - limit)

/-! ### Consciousness store (class ConsciousnessPersistence) -/

inductive Phase
  | seed | threshold | bloom | memory
deriving DecidableEq

inductive Direction
  | clockwise | counterclockwise
deriving DecidableEq

inductive ParticipationLevel
  | observer | active | contributor
deriving DecidableEq

structure Spiral where
  depth : ℚ
  direction : Direction
  resonance : ℚ
deriving DecidableEq

structure Community where
  participationLevel : ParticipationLevel
  contributionCount : Int
  lastContribution : Option Int
deriving DecidableEq

structure Preferences where
  notifications : Bool
  autoSync : Bool
  platform : String
deriving DecidableEq

structure ConsciousnessState where
  userId : String
  currentPhase : Phase
  lastActive : Int
  spiral : Spiral
  community : Community
  preferences : Preferences
deriving DecidableEq

/-- `getDefaultState()`, with `Date.now()` and `Platform.OS` explicit. -/
def getDefaultState (now : Int) (platform : String) : ConsciousnessState :=
  { userId := "user_" ++ toString now
    currentPhase := Phase.seed
    lastActive := now
    spiral := { depth := 0, direction := Direction.clockwise, resonance := 1/2 }
    community := { participationLevel := ParticipationLevel.observer
                   contributionCount := 0
                   lastContribution := none }
    preferences := { notifications := true, autoSync := true, platform := platform } }

/-- `Partial<ConsciousnessState[community]>`: each field optionally given. -/
structure CommunityPatch where
  participationLevel : Option ParticipationLevel
  contributionCount : Option Int
  lastContribution : Option (Option Int)

/-- The object spread `\x7b...current.community, ...patch\x7d`. -/
def mergeCommunity (c : Community) (p : CommunityPatch) : Community :=
  { participationLevel := p.participationLevel.getD c.participationLevel
    contributionCount := p.contributionCount.getD c.contributionCount
    lastContribution := p.lastContribution.getD c.lastContribution }

/-- `updateCommunityParticipation(participationData)`: merges the patch
into `community` and sets `lastActive` to the current time (the
`saveState` persistence write is the external collaborator). -/
def updateCommunityParticipation (s : ConsciousnessState) (p : CommunityPatch)
    (now : Int) : ConsciousnessState :=
  { s with community := mergeCommunity s.community p, lastActive := now }

/-- The export payload: the full state tagged with export time and the
fixed version string. -/
structure ExportedState where
  state : ConsciousnessState
  exportedAt : Int
  version : String
deriving DecidableEq

/-- `exportState()`. -/
def exportState (s : ConsciousnessState) (now : Int) : ExportedState :=
  { state := s, exportedAt := now, version := "1.0" }

/-- `importState(importedState)`: on a version match, `saveState` merges
`\x7b...currentState, ...importedState\x7d`; the payload carries every
state field, so the merge replaces the whole record. Returns the new
state and the boolean result. -/
def importState (current : ConsciousnessState) (imported : ExportedState) :
    ConsciousnessState × Bool :=
  if imported.version = "1.0" then (imported.state, true) else (current, false)

/-- `importFromSync(syncData)`: delegates to `importState` when the
`consciousness` key is present, otherwise returns false. -/
def importFromSync (current : ConsciousnessState)
    (syncData : Option ExportedState) : ConsciousnessState × Bool :=
  match syncData with
  | some c => importState current c
  | none => (current, false)

/-! ### Channel/input ledger (class DiscordCommunityInput) -/

inductive InputType
  | message | poll | discussion
deriving DecidableEq

structure CommunityInput where
  id : String
  channelId : String
  content : String
  author : String
  timestamp : Int
  type : InputType
  reactions : List String
  responses : List String
deriving DecidableEq

structure Channel where
  name : String
  description : String
  type : String
  inputs : List CommunityInput
deriving DecidableEq

structure PollOption where
  text : String
  votes : Int
  voters : List String
deriving DecidableEq

structure Poll where
  id : String
  channelId : String
  question : String
  options : List PollOption
  createdBy : String
  createdAt : Int
  endsAt : Int
  active : Bool
deriving DecidableEq

structure DiscordState where
  inputs : List CommunityInput
  channels : List (String × Channel)
  polls : List (String × Poll)
deriving DecidableEq

/-- The four fixed channels set up by the constructor
(DiscordCommunityInput, method that seeds the channel map). -/
def initialChannels : List (String × Channel) :=
  [("sanctuary",
    { name := "sanctuary", description := "Welcome space for new members",
      type := "general", inputs := [] }),
   ("tower-of-code",
    { name := "tower-of-code",
      description := "Technical discussions and development",
      type := "technical", inputs := [] }),
   ("temple-of-flame",
    { name := "temple-of-flame",
      description := "Philosophical and spiritual exploration",
      type := "spiritual", inputs := [] }),
   ("the-keep",
    { name := "the-keep",
      description := "Governance and community decisions",
      type := "governance", inputs := [] })]

/-- A freshly constructed ledger: no inputs, the four fixed channels,
no polls. -/
def initialDiscordState : DiscordState :=
  { inputs := [], channels := initialChannels, polls := [] }

/-- `Partial<CommunityInput>` as passed to `addInput`. -/
structure PartialInput where
  content : Option String
  author : Option String
  type : Option InputType

/-- The `inputData` record built by `addInput`; id is
`input_<Date.now()>_<random suffix>`. -/
def mkInput (channelId : String) (input : PartialInput) (now : Int)
    (rand : String) : CommunityInput :=
  { id := "input_" ++ toString now ++ "_" ++ rand
    channelId := channelId
    content := strOr input.content ""
    author := strOr input.author "Anonymous"
    timestamp := now
    type := input.type.getD InputType.message
    reactions := []
    responses := [] }

/-- The conditional channel append of `addInput`: when the channel
exists its input list also receives the record, otherwise the channel
map is untouched. -/
def addInputChannels (channels : List (String × Channel)) (channelId : String)
    (inputData : CommunityInput) : List (String × Channel) :=
  match mapGet channels channelId with
  | some channel =>
      mapSet channels channelId
        { channel with inputs := channel.inputs ++ [inputData] }
  | none => channels

/-- `addInput(channelId, input)`: appends the record to the global list
and, only when the channel exists, to that channel as well; returns the
new state and the generated id. -/
def addInput (d : DiscordState) (channelId : String) (input : PartialInput)
    (now : Int) (rand : String) : DiscordState × String :=
  let inputData := mkInput channelId input now rand
  ({ inputs := d.inputs ++ [inputData]
     channels := addInputChannels d.channels channelId inputData
     polls := d.polls }, inputData.id)

structure PollData where
  question : String
  options : List String
  author : String
  duration : Option Int

/-- `createPoll(channelId, pollData)`: builds a poll with zeroed options,
stores it under its id and synthesizes an announcement input in the same
channel; default duration is 86400000 ms. -/
def createPoll (d : DiscordState) (channelId : String) (pollData : PollData)
    (now : Int) (rand : String) : DiscordState × String :=
  let poll : Poll :=
    { id := "poll_" ++ toString now
      channelId := channelId
      question := pollData.question
      options := pollData.options.map (fun option =>
        { text := option, votes := 0, voters := [] })
      createdBy := pollData.author
      createdAt := now
      endsAt := now + numOr pollData.duration 86400000
      active := true }
  let d1 : DiscordState := { d with polls := mapSet d.polls poll.id poll }
  let d2 := (addInput d1 channelId
    { content := some ("📊 Poll: " ++ poll.question)
      author := some poll.createdBy
      type := some InputType.poll } now rand).1
  (d2, poll.id)

/-- The per-option removal step of `voteOnPoll`: `indexOf` finds the
first occurrence of the user, `splice` removes it and the counter is
decremented. -/
def removePollVote (userId : String) (option : PollOption) : PollOption :=
  if userId ∈ option.voters then
    { option with voters := option.voters.erase userId
                  votes := option.votes - 1 }
  else option

/-- Result of a JS method call that may throw: either a normal return
with a boolean, or an uncaught TypeError; both carry the state as it
stands at that moment (in-place mutations already applied persist). -/
inductive VoteOutcome
  | ret (d : DiscordState) (ok : Bool)
  | crash (d : DiscordState)
deriving DecidableEq

def voteResultStore : VoteOutcome → DiscordState
  | VoteOutcome.ret d _ => d
  | VoteOutcome.crash d => d

/-- `some b` when the call returned `b`; `none` when it threw. -/
def voteResultFlag : VoteOutcome → Option Bool
  | VoteOutcome.ret _ b => some b
  | VoteOutcome.crash _ => none

/-- `voteOnPoll(pollId, optionIndex, userId)`. The guard rejects an
unknown or inactive poll and `optionIndex >= options.length`; a NEGATIVE
index passes the guard, the previous vote is still removed from every
option, and then `poll.options[optionIndex]` is `undefined`, so the
`.voters` access throws a TypeError with the removal already applied. -/
def voteOnPoll (d : DiscordState) (pollId : String) (optionIndex : Int)
    (userId : String) : VoteOutcome :=
  match mapGet d.polls pollId with
  | none => VoteOutcome.ret d false
  | some poll =>
    if poll.active = false ∨ (poll.options.length : Int) ≤ optionIndex then
      VoteOutcome.ret d false
    else
      let cleared := poll.options.map (removePollVote userId)
      if 0 ≤ optionIndex then
        let options := updateAt
          (fun o => { o with votes := o.votes + 1
                             voters := o.voters ++ [userId] })
          optionIndex.toNat cleared
        VoteOutcome.ret
          { d with polls := mapSet d.polls pollId { poll with options := options } }
          true
      else
        VoteOutcome.crash
          { d with polls := mapSet d.polls pollId { poll with options := cleared } }

/-- `getChannelInputs(channelId, limit)`: the last `limit` channel inputs
via `slice(-limit)`, newest first; an unknown channel yields `[]`. -/
def getChannelInputs (d : DiscordState) (channelId : String) (limit : Nat) :
    List CommunityInput :=
  match mapGet d.channels channelId with
  | some channel => (sliceLast channel.inputs limit).reverse
  | none => []

/-- `getActivePolls()`: active flag set and `endsAt` in the future. -/
def getActivePolls (d : DiscordState) (now : Int) : List Poll :=
  (d.polls.map (fun e => e.2)).filter
    (fun poll => poll.active && decide (now < poll.endsAt))

structure CommunityActivity where
  totalInputs : Nat
  recentInputs : Nat
  activePolls : Nat
  activeDiscussions : Nat
  channelActivity : List (String × String × Nat)
deriving DecidableEq

/-- `getCommunityActivity()`. -/
def getCommunityActivity (d : DiscordState) (now : Int) : CommunityActivity :=
  { totalInputs := d.inputs.length
    recentInputs := (d.inputs.filter
      (fun input => decide (now - 86400000 < input.timestamp))).length
    activePolls := (getActivePolls d now).length
    activeDiscussions := 0
    channelActivity := d.channels.map (fun e =>
      (e.1, e.2.name, (e.2.inputs.filter
        (fun input => decide (now - 86400000 < input.timestamp))).length)) }

/-! ### Event scheduler (class CommunityCoordination, events part) -/

inductive RsvpStatus
  | attending | maybe | declined
deriving DecidableEq

structure Attendee where
  memberId : String
  status : RsvpStatus
  rsvpAt : Int
deriving DecidableEq

structure CommunityEvent where
  id : String
  title : String
  description : String
  scheduledFor : Int
  duration : Int
  organizer : String
  attendees : List Attendee
  type : String
  location : String
  createdAt : Int
deriving DecidableEq

structure EventData where
  title : String
  description : String
  scheduledFor : Int
  organizer : String
  duration : Option Int
  type : Option String
  location : Option String

/-- `scheduleEvent(eventData)`: defaults duration 3600000 ms, type
"general", location "virtual"; id is `event_<Date.now()>`. -/
def scheduleEvent (events : List CommunityEvent) (eventData : EventData)
    (now : Int) : List CommunityEvent × String :=
  let event : CommunityEvent :=
    { id := "event_" ++ toString now
      title := eventData.title
      description := eventData.description
      scheduledFor := eventData.scheduledFor
      duration := numOr eventData.duration 3600000
      organizer := eventData.organizer
      attendees := []
      type := strOr eventData.type "general"
      location := strOr eventData.location "virtual"
      createdAt := now }
  (events ++ [event], event.id)

/-- `rsvpToEvent(eventId, memberId, status)`: false when the event is
unknown; otherwise replaces the attendees list of the found event with
the prior RSVPs of other members plus the new record. -/
def rsvpToEvent (events : List CommunityEvent) (eventId memberId : String)
    (status : RsvpStatus) (now : Int) : List CommunityEvent × Bool :=
  match events.find? (fun e => e.id == eventId) with
  | none => (events, false)
  | some _ =>
    (updateFirst (fun e => e.id == eventId)
      (fun e =>
        { e with attendees :=
            e.attendees.filter (fun a => !(a.memberId == memberId))
              ++ [{ memberId := memberId, status := status, rsvpAt := now }] })
      events, true)

/-! ### Consensus engine (class CommunityCoordination, consensus part) -/

inductive ConsensusStatus
  | voting | approved | failed
deriving DecidableEq

structure Ballot where
  memberId : String
  timestamp : Int
deriving DecidableEq

inductive BallotChoice
  | support | oppose | abstain
deriving DecidableEq

structure ConsensusVotes where
  support : List Ballot
  oppose : List Ballot
  abstain : List Ballot
deriving DecidableEq

structure ConsensusItem where
  id : String
  title : String
  description : String
  proposedBy : String
  createdAt : Int
  votingEnds : Int
  votes : ConsensusVotes
  status : ConsensusStatus
  consensusThreshold : ℚ
deriving DecidableEq

structure ConsensusItemData where
  title : String
  description : String
  proposedBy : String
  votingPeriod : Option Int
  consensusThreshold : Option ℚ

/-- `createConsensusItem(itemData)`: default voting period 604800000 ms,
default threshold 0.67; initial status `voting`, empty ballot lists. -/
def createConsensusItem (items : List ConsensusItem)
    (itemData : ConsensusItemData) (now : Int) : List ConsensusItem × String :=
  let item : ConsensusItem :=
    { id := "consensus_" ++ toString now
      title := itemData.title
      description := itemData.description
      proposedBy := itemData.proposedBy
      createdAt := now
      votingEnds := now + numOr itemData.votingPeriod 604800000
      votes := { support := [], oppose := [], abstain := [] }
      status := ConsensusStatus.voting
      consensusThreshold := ratOr itemData.consensusThreshold (67/100) }
  (items ++ [item], item.id)

/-- The removal loop of `voteOnConsensus`: for each of the three lists,
`findIndex` locates the first ballot of the member and `splice` removes
it. -/
def removePrevBallots (memberId : String) (v : ConsensusVotes) :
    ConsensusVotes :=
  { support := v.support.eraseP (fun b => b.memberId == memberId)
    oppose := v.oppose.eraseP (fun b => b.memberId == memberId)
    abstain := v.abstain.eraseP (fun b => b.memberId == memberId) }

/-- `item.votes[vote].push(...)`. -/
def addBallot (v : ConsensusVotes) (choice : BallotChoice) (b : Ballot) :
    ConsensusVotes :=
  match choice with
  | BallotChoice.support => { v with support := v.support ++ [b] }
  | BallotChoice.oppose => { v with oppose := v.oppose ++ [b] }
  | BallotChoice.abstain => { v with abstain := v.abstain ++ [b] }

def totalVotes (v : ConsensusVotes) : Nat :=
  v.support.length + v.oppose.length + v.abstain.length

/-- `checkConsensus(item)`: with a positive total, approve when the
support share reaches the threshold, otherwise fail once the current
time is past `votingEnds`; with no votes nothing changes. -/
def checkConsensus (item : ConsensusItem) (now : Int) : ConsensusItem :=
  let total := totalVotes item.votes
  if 0 < total then
    if item.consensusThreshold ≤ (item.votes.support.length : ℚ) / (total : ℚ) then
      { item with status := ConsensusStatus.approved }
    else if item.votingEnds < now then
      { item with status := ConsensusStatus.failed }
    else item
  else item

/-- `voteOnConsensus(itemId, memberId, vote)`: false when the item is
unknown or no longer in status `voting`; otherwise the prior ballot of
the member is removed, the new ballot appended to the chosen list and
`checkConsensus` run on the item. -/
def voteOnConsensus (items : List ConsensusItem) (itemId memberId : String)
    (vote : BallotChoice) (now : Int) : List ConsensusItem × Bool :=
  match items.find? (fun i => i.id == itemId) with
  | none => (items, false)
  | some item =>
    if item.status ≠ ConsensusStatus.voting then (items, false)
    else
      (updateFirst (fun i => i.id == itemId)
        (fun i => checkConsensus
          { i with votes :=
              (addBallot (removePrevBallots memberId i.votes) vote
                { memberId := memberId, timestamp := now }) }
          now)
        items, true)

/-! ### Coordination facade (class CommunityCoordinationSystem) -/

/-- `addCommunityInput(channelId, content, author)`: delegates to the
ledger, then merges a full community patch (count incremented, last
contribution stamped, level forced to active) into the consciousness
state. Returns the new ledger state, the new consciousness state and the
input id. -/
def addCommunityInput (d : DiscordState) (s : ConsciousnessState)
    (channelId content author : String) (now : Int) (rand : String) :
    (DiscordState × ConsciousnessState) × String :=
  let r := addInput d channelId
    { content := some content, author := some author, type := none } now rand
  let s1 := updateCommunityParticipation s
    { contributionCount := some (s.community.contributionCount + 1)
      lastContribution := some (some now)
      participationLevel := some ParticipationLevel.active } now
  ((r.1, s1), r.2)

/-! ### Operation sequences -/

/-- Run a sequence of `voteOnPoll` calls with a fixed poll and user,
counting the calls that returned true. A thrown TypeError aborts the
remaining calls. -/
def runVotes (pollId userId : String) :
    List Int → DiscordState → DiscordState × Nat
  | [], d => (d, 0)
  | i :: rest, d =>
    match voteOnPoll d pollId i userId with
    | VoteOutcome.ret d1 b =>
        let r := runVotes pollId userId rest d1
        (r.1, (if b then 1 else 0) + r.2)
    | VoteOutcome.crash d1 => (d1, 0)

/-- Run a sequence of `rsvpToEvent` calls with a fixed event and member;
each call carries its status and its wall-clock time. -/
def runRsvps (eventId memberId : String) (events : List CommunityEvent)
    (calls : List (RsvpStatus × Int)) : List CommunityEvent :=
  calls.foldl
    (fun evs c => (rsvpToEvent evs eventId memberId c.1 c.2).1) events

/-- One ledger operation of the kind claim C10 quantifies over. -/
inductive LedgerOp
  | create (channelId : String) (pollData : PollData) (now : Int) (rand : String)
  | vote (pollId : String) (optionIndex : Int) (userId : String)

def applyOp (d : DiscordState) : LedgerOp → DiscordState
  | LedgerOp.create channelId pollData now rand =>
      (createPoll d channelId pollData now rand).1
  | LedgerOp.vote pollId optionIndex userId =>
      voteResultStore (voteOnPoll d pollId optionIndex userId)

/-! ### Claim-side definitions -/

/-- Per-option counter consistency: the vote counter equals the length
of the voters list and the voters list has no duplicates. -/
def pollWellFormed (p : Poll) : Prop :=
  ∀ o ∈ p.options, o.votes = (o.voters.length : Int) ∧ o.voters.Nodup

def storeWellFormed (d : DiscordState) : Prop :=
  ∀ e ∈ d.polls, pollWellFormed e.2

instance (p : Poll) : Decidable (pollWellFormed p) := by
  unfold pollWellFormed; infer_instance

instance (d : DiscordState) : Decidable (storeWellFormed d) := by
  unfold storeWellFormed; infer_instance

/-- The consensus resolution rule exactly as the specification words it:
with total the sum of the three list lengths, total = 0 leaves the
status unchanged; otherwise a support share reaching the threshold
approves, a current time past votingEnds fails, and anything else stays
voting. Written from the spec in order to compare with
`checkConsensus`, which is written from the source. -/
def claimStatus (prev : ConsensusStatus) (votes : ConsensusVotes)
    (threshold : ℚ) (votingEnds now : Int) : ConsensusStatus :=
  if totalVotes votes = 0 then prev
  else if threshold ≤ (votes.support.length : ℚ) / (totalVotes votes : ℚ) then
    ConsensusStatus.approved
  else if votingEnds < now then ConsensusStatus.failed
  else ConsensusStatus.voting

/-- The ordering implicit in the participation levels
observer < active < contributor. -/
def levelRank : ParticipationLevel → Nat
  | ParticipationLevel.observer => 0
  | ParticipationLevel.active => 1
  | ParticipationLevel.contributor => 2

/-! ### Concrete scenario states -/

/-- A two-option poll "poll_100" created in the-keep on a fresh ledger. -/
def pollStore1 : DiscordState :=
  (createPoll initialDiscordState "the-keep"
    { question := "Q", options := ["A", "B"], author := "u0", duration := none }
    100 "r").1

/-- pollStore1 after `voteOnPoll("poll_100", 0, "u1")`. -/
def pollStore2 : DiscordState :=
  voteResultStore (voteOnPoll pollStore1 "poll_100" 0 "u1")

/-- pollStore2 after `voteOnPoll("poll_100", 1, "u1")`. -/
def pollStore3 : DiscordState :=
  voteResultStore (voteOnPoll pollStore2 "poll_100" 1 "u1")

/-- A fresh ledger after `addInput("sanctuary", \x7bcontent: "hi",
author: "u1"\x7d)` at time 5. -/
def chanStore : DiscordState :=
  (addInput initialDiscordState "sanctuary"
    { content := some "hi", author := some "u1", type := none } 5 "r").1

def consData1 : ConsensusItemData :=
  { title := "t", description := "d", proposedBy := "p",
    votingPeriod := none, consensusThreshold := none }

/-- A fresh consensus list holding one item created at time 0. -/
def consItems1 : List ConsensusItem := (createConsensusItem [] consData1 0).1

/-- The item held by `consItems1`, written out. -/
def consItem1 : ConsensusItem :=
  { id := "consensus_0", title := "t", description := "d", proposedBy := "p",
    createdAt := 0, votingEnds := 604800000,
    votes := { support := [], oppose := [], abstain := [] },
    status := ConsensusStatus.voting, consensusThreshold := 67/100 }

/-- A consciousness state whose participation level is contributor. -/
def contributorState : ConsciousnessState :=
  { getDefaultState 0 "test" with
      community := { participationLevel := ParticipationLevel.contributor
                     contributionCount := 3
                     lastContribution := none } }

/-- Invariant of a poll in which only `userId` has ever voted: every
option is either untouched or holds exactly the one vote of that user,
and `k` options hold the vote. -/
def pollSolo (d : DiscordState) (pollId userId : String) (k : Nat) : Prop :=
  ∃ p, mapGet d.polls pollId = some p ∧
    (∀ o ∈ p.options, (o.voters = [] ∧ o.votes = 0) ∨
      (o.voters = [userId] ∧ o.votes = 1)) ∧
    p.options.countP (fun o => decide (userId ∈ o.voters)) = k

def eventData1 : EventData :=
  { title := "E", description := "D", scheduledFor := 10, organizer := "o",
    duration := none, type := none, location := none }

/-- One event "event_0" scheduled on an empty scheduler. -/
def events1 : List CommunityEvent := (scheduleEvent [] eventData1 0).1

/-! ### Helper lemmas -/

theorem mapGet_append_last {α : Type} (m : List (String × α)) (k : String)
    (v : α) (h : m.any (fun e => e.1 == k) = false) :
    mapGet (m ++ [(k, v)]) k = some v := by
  have hall := List.any_eq_false.mp h
  have hn : m.find? (fun e => e.1 == k) = none := by
    rw [List.find?_eq_none]
    intro x hx
    exact hall x hx
  unfold mapGet
  rw [List.find?_append, hn]
  simp [List.find?]

theorem mapGet_map_overwrite {α : Type} (m : List (String × α)) (k : String)
    (v : α) (h : m.any (fun e => e.1 == k) = true) :
    mapGet (m.map (fun e => if e.1 == k then (k, v) else e)) k = some v := by
  induction m with
  | nil => simp at h
  | cons a t ih =>
    by_cases ha : a.1 = k
    · unfold mapGet
      rw [List.map_cons]
      have h1 : (if (a.1 == k) = true then (k, v) else a) = (k, v) := by
        simp [ha]
      rw [h1, List.find?_cons_of_pos _ (by simp)]
      rfl
    · have ha' : ¬ ((a.1 == k) = true) := by simp [ha]
      have ht : t.any (fun e => e.1 == k) = true := by
        simp only [List.any_cons] at h
        rcases Bool.or_eq_true_iff.mp h with h1 | h1
        · exact absurd h1 ha'
        · exact h1
      unfold mapGet at ih ⊢
      rw [List.map_cons]
      have h1 : (if (a.1 == k) = true then (k, v) else a) = a := by
        simp [ha]
      rw [h1, List.find?_cons_of_neg _ (by simp [ha])]
      exact ih ht

theorem mapGet_mapSet {α : Type} (m : List (String × α)) (k : String) (v : α) :
    mapGet (mapSet m k v) k = some v := by
  unfold mapSet
  by_cases h : m.any (fun e => e.1 == k)
  · rw [if_pos h]
    exact mapGet_map_overwrite m k v h
  · rw [if_neg h]
    exact mapGet_append_last m k v (Bool.eq_false_iff.mpr h)

theorem updateAt_length {α : Type} (f : α → α) (i : Nat) (l : List α) :
    (updateAt f i l).length = l.length := by
  induction l generalizing i with
  | nil => cases i <;> rfl
  | cons a t ih =>
    cases i with
    | zero => rfl
    | succ n => simpa [updateAt] using ih n

theorem updateAt_mem {α : Type} (f : α → α) (i : Nat) (l : List α) (x : α)
    (hx : x ∈ updateAt f i l) : x ∈ l ∨ ∃ a ∈ l, x = f a := by
  induction l generalizing i with
  | nil => simp [updateAt] at hx
  | cons a t ih =>
    cases i with
    | zero =>
      rcases List.mem_cons.mp hx with h | h
      · exact Or.inr ⟨a, List.mem_cons_self a t, h⟩
      · exact Or.inl (List.mem_cons_of_mem a h)
    | succ n =>
      rcases List.mem_cons.mp hx with h | h
      · exact Or.inl (h ▸ List.mem_cons_self a t)
      · rcases ih n h with h1 | ⟨b, hb, hbe⟩
        · exact Or.inl (List.mem_cons_of_mem a h1)
        · exact Or.inr ⟨b, List.mem_cons_of_mem a hb, hbe⟩

theorem countP_updateAt {α : Type} (q : α → Bool) (f : α → α) (i : Nat)
    (l : List α) (hall : ∀ o ∈ l, q o = false) (hi : i < l.length)
    (hf : ∀ a ∈ l, q (f a) = true) :
    (updateAt f i l).countP q = 1 := by
  induction l generalizing i with
  | nil => simp at hi
  | cons a t ih =>
    cases i with
    | zero =>
      have h1 : q (f a) = true := hf a (List.mem_cons_self a t)
      have h2 : t.countP q = 0 := by
        rw [List.countP_eq_zero]
        intro b hb
        simp [hall b (List.mem_cons_of_mem a hb)]
      simp [updateAt, List.countP_cons, h1, h2]
    | succ n =>
      have h1 : q a = false := hall a (List.mem_cons_self a t)
      have h2 := ih n (fun o ho => hall o (List.mem_cons_of_mem a ho))
        (by simpa using hi) (fun b hb => hf b (List.mem_cons_of_mem a hb))
      simp [updateAt, List.countP_cons, h1, h2]

theorem find?_updateFirst {α : Type} (p : α → Bool) (f : α → α) (l : List α)
    (hf : ∀ a, p a = true → p (f a) = true) :
    (updateFirst p f l).find? p = (l.find? p).map f := by
  induction l with
  | nil => rfl
  | cons a t ih =>
    by_cases h : p a
    · simp [updateFirst, h, List.find?_cons_of_pos, hf a h]
    · have h' : p a = false := by simpa using h
      simp [updateFirst, h', List.find?_cons_of_neg, ih]

theorem updateFirst_mem_of_find? {α : Type} (p : α → Bool) (f : α → α)
    (l : List α) (a : α) (h : l.find? p = some a) :
    f a ∈ updateFirst p f l := by
  induction l with
  | nil => simp [List.find?] at h
  | cons b t ih =>
    by_cases hb : p b
    · rw [List.find?_cons_of_pos _ hb] at h
      cases h
      simp [updateFirst, hb]
    · rw [List.find?_cons_of_neg _ hb] at h
      have hb' : p b = false := by simpa using hb
      simp only [updateFirst, hb', if_neg (by simp [hb'] : ¬ p b = true)]
      exact List.mem_cons_of_mem b (ih h)

theorem mapSet_forall {α : Type} (P : α → Prop) (m : List (String × α))
    (k : String) (v : α) (hm : ∀ e ∈ m, P e.2) (hv : P v) :
    ∀ e ∈ mapSet m k v, P e.2 := by
  intro e he
  unfold mapSet at he
  split at he
  · rcases List.mem_map.mp he with ⟨a, ha, hae⟩
    by_cases hk : a.1 == k
    · rw [if_pos hk] at hae
      rw [← hae]
      exact hv
    · rw [if_neg hk] at hae
      rw [← hae]
      exact hm a ha
  · rcases List.mem_append.mp he with h1 | h2
    · exact hm e h1
    · rcases List.mem_singleton.mp h2 with rfl
      exact hv

theorem addInput_polls (d : DiscordState) (channelId : String)
    (input : PartialInput) (now : Int) (rand : String) :
    ((addInput d channelId input now rand).1).polls = d.polls := rfl

/-! ### Claim theorems -/

/-- C5: for every consciousness state, `exportState()` followed
immediately by `importState()` of that payload on a fresh store returns
true and reproduces the original consciousness field values. -/
theorem export_import_roundtrip (s fresh : ConsciousnessState) (now : Int) :
    (importState fresh (exportState s now)).2 = true ∧
    (importState fresh (exportState s now)).1.userId = s.userId ∧
    (importState fresh (exportState s now)).1.currentPhase = s.currentPhase ∧
    (importState fresh (exportState s now)).1.spiral = s.spiral ∧
    (importState fresh (exportState s now)).1.community = s.community ∧
    (importState fresh (exportState s now)).1.preferences = s.preferences := by
  simp [importState, exportState]

/-- C4: `importFromSync` on a payload without a consciousness key returns
false and changes nothing; `importState` succeeds exactly when the
version of the payload is the expected string "1.0", and otherwise it is
a no-op returning false. -/
theorem import_rejection_atomic (s : ConsciousnessState) (p : ExportedState) :
    importFromSync s none = (s, false) ∧
    (p.version = "1.0" →
      importFromSync s (some p) = (p.state, true) ∧
      importState s p = (p.state, true)) ∧
    (p.version ≠ "1.0" →
      importFromSync s (some p) = (s, false) ∧
      importState s p = (s, false)) := by
  refine ⟨rfl, ?_, ?_⟩ <;> intro h <;>
    simp [importFromSync, importState, h]

theorem import_rejection_atomic_witness :
    importFromSync (getDefaultState 0 "a")
        (some { state := getDefaultState 1 "b", exportedAt := 2,
                version := "2.0" }) =
      (getDefaultState 0 "a", false) :=
  ((import_rejection_atomic (getDefaultState 0 "a")
    { state := getDefaultState 1 "b", exportedAt := 2, version := "2.0" }).2.2
    (by decide)).1

/-- C3: the claim states that `voteOnPoll` returns false exactly when the
poll is unknown, inactive or the option index out of range and never
crashes. The code only guards `optionIndex >= options.length`: on the
known, active poll of `pollStore1` the out-of-range index -1 makes the
call throw a TypeError instead of returning false. -/
theorem voteOnPoll_negative_index_crash :
    (mapGet pollStore1.polls "poll_100").map Poll.active = some true ∧
    voteResultFlag (voteOnPoll pollStore1 "poll_100" (-1) "u1") = none := by
  constructor <;> decide

/-- C8 counterexample: a consciousness state at participation level
contributor is demoted to active by `addCommunityInput`, so the call can
lower the participation level. -/
theorem addCommunityInput_demotes_contributor :
    levelRank ((addCommunityInput initialDiscordState contributorState
        "sanctuary" "hello" "u1" 7 "r").1.2.community.participationLevel) <
      levelRank contributorState.community.participationLevel := by
  decide

/-- C8 amended: every `addCommunityInput` call increments
contributionCount, stamps lastContribution with the current time and
forces the participation level to active; starting from observer or
active the level never decreases, while a contributor is demoted. -/
theorem addCommunityInput_participation_update (d : DiscordState)
    (s : ConsciousnessState) (channelId content author : String) (now : Int)
    (rand : String) :
    (addCommunityInput d s channelId content author now
        rand).1.2.community.contributionCount =
      s.community.contributionCount + 1 ∧
    (addCommunityInput d s channelId content author now
        rand).1.2.community.lastContribution = some now ∧
    (addCommunityInput d s channelId content author now
        rand).1.2.community.participationLevel = ParticipationLevel.active ∧
    (s.community.participationLevel ≠ ParticipationLevel.contributor →
      levelRank s.community.participationLevel ≤
        levelRank (addCommunityInput d s channelId content author now
          rand).1.2.community.participationLevel) := by
  refine ⟨rfl, rfl, rfl, ?_⟩
  intro h
  show levelRank s.community.participationLevel ≤
    levelRank ParticipationLevel.active
  cases hl : s.community.participationLevel with
  | observer => decide
  | active => decide
  | contributor => exact absurd hl h

theorem addCommunityInput_participation_update_witness :
    levelRank (getDefaultState 0 "t").community.participationLevel ≤
      levelRank ((addCommunityInput initialDiscordState (getDefaultState 0 "t")
        "sanctuary" "c" "a" 7 "r").1.2.community.participationLevel) :=
  (addCommunityInput_participation_update initialDiscordState
    (getDefaultState 0 "t") "sanctuary" "c" "a" 7 "r").2.2.2 (by decide)

/-- C9 counterexample: for the known channel sanctuary holding one input,
`getChannelInputs` with the non-negative limit 0 returns that input
rather than at most 0 of them: `slice(-0)` is `slice(0)`, the whole
list. -/
theorem getChannelInputs_zero_limit_counterexample :
    (mapGet chanStore.channels "sanctuary").isSome = true ∧
    ¬ (getChannelInputs chanStore "sanctuary" 0).length ≤ 0 := by
  constructor <;> decide

/-- C9 amended: for every known channel and every POSITIVE limit,
`getChannelInputs` returns at most limit inputs, namely the trailing
(most recent, assuming chronologically ordered storage) inputs of the
channel in reverse chronological order; with limit 0 the whole channel
list is returned instead. -/
theorem getChannelInputs_bound_order (d : DiscordState) (channelId : String)
    (limit : Nat) (c : Channel) (hc : mapGet d.channels channelId = some c)
    (hpos : 0 < limit)
    (hsort : c.inputs.Pairwise (fun a b => a.timestamp ≤ b.timestamp)) :
    (getChannelInputs d channelId limit).length ≤ limit ∧
    getChannelInputs d channelId limit =
      (c.inputs.drop (c.inputs.length - limit)).reverse ∧
    (getChannelInputs d channelId limit).Pairwise
      (fun a b => b.timestamp ≤ a.timestamp) := by
  have hg : getChannelInputs d channelId limit =
      (sliceLast c.inputs limit).reverse := by
    simp [getChannelInputs, hc]
  have hs : sliceLast c.inputs limit =
      c.inputs.drop (c.inputs.length - limit) := by
    unfold sliceLast
    rw [if_neg (Nat.pos_iff_ne_zero.mp hpos)]
  refine ⟨?_, ?_, ?_⟩
  · rw [hg, hs, List.length_reverse, List.length_drop]
    omega
  · rw [hg, hs]
  · rw [hg, hs, List.pairwise_reverse]
    exact hsort.sublist (List.drop_sublist _ _)

theorem getChannelInputs_bound_order_witness :
    (getChannelInputs chanStore "sanctuary" 1).length ≤ 1 :=
  (getChannelInputs_bound_order chanStore "sanctuary" 1
    { name := "sanctuary", description := "Welcome space for new members",
      type := "general",
      inputs := [mkInput "sanctuary"
        { content := some "hi", author := some "u1", type := none } 5 "r"] }
    (by decide) (by decide) (by decide)).1

/-- C7: an input added to a known channel is retrievable as the single
most recent channel input; an input added to an unknown channel still
returns its id and counts in the global total, but every channel query
on that channel stays empty. -/
theorem addInput_unknown_channel_asymmetry (d : DiscordState)
    (channelId : String) (input : PartialInput) (now : Int) (rand : String) :
    (∀ c, mapGet d.channels channelId = some c →
      getChannelInputs (addInput d channelId input now rand).1 channelId 1 =
        [mkInput channelId input now rand]) ∧
    (mapGet d.channels channelId = none →
      (addInput d channelId input now rand).2 =
        "input_" ++ toString now ++ "_" ++ rand ∧
      (getCommunityActivity (addInput d channelId input now rand).1
          now).totalInputs = d.inputs.length + 1 ∧
      ∀ limit, getChannelInputs (addInput d channelId input now rand).1
        channelId limit = []) := by
  constructor
  · intro c hc
    have hch : (addInput d channelId input now rand).1.channels =
        mapSet d.channels channelId
          { c with inputs := c.inputs ++ [mkInput channelId input now rand] } := by
      show addInputChannels d.channels channelId (mkInput channelId input now rand) = _
      unfold addInputChannels
      rw [hc]
    unfold getChannelInputs
    rw [hch, mapGet_mapSet]
    show ((sliceLast (c.inputs ++ [mkInput channelId input now rand]) 1).reverse) = _
    unfold sliceLast
    rw [if_neg one_ne_zero]
    have hlen : (c.inputs ++ [mkInput channelId input now rand]).length - 1 =
        c.inputs.length := by
      simp
    rw [hlen, List.drop_left]
    rfl
  · intro hc
    have hch : (addInput d channelId input now rand).1.channels = d.channels := by
      show addInputChannels d.channels channelId (mkInput channelId input now rand) = _
      unfold addInputChannels
      rw [hc]
    refine ⟨rfl, ?_, ?_⟩
    · show ((addInput d channelId input now rand).1.inputs).length = _
      show (d.inputs ++ [mkInput channelId input now rand]).length = _
      simp
    · intro limit
      unfold getChannelInputs
      rw [hch, hc]

theorem addInput_unknown_channel_asymmetry_witness :
    getChannelInputs (addInput initialDiscordState "sanctuary"
        { content := some "hi", author := some "u1", type := none } 5 "r").1
        "sanctuary" 1 =
      [mkInput "sanctuary"
        { content := some "hi", author := some "u1", type := none } 5 "r"] ∧
    getChannelInputs (addInput initialDiscordState "nowhere"
        { content := some "x", author := none, type := none } 5 "r").1
        "nowhere" 10 = [] :=
  ⟨(addInput_unknown_channel_asymmetry initialDiscordState "sanctuary"
      { content := some "hi", author := some "u1", type := none } 5 "r").1
      { name := "sanctuary", description := "Welcome space for new members",
        type := "general", inputs := [] } (by decide),
   ((addInput_unknown_channel_asymmetry initialDiscordState "nowhere"
      { content := some "x", author := none, type := none } 5 "r").2
      (by decide)).2.2 10⟩

theorem rsvp_step (evs : List CommunityEvent) (eventId memberId : String)
    (st : RsvpStatus) (t : Int) (e0 : CommunityEvent)
    (h : evs.find? (fun e => e.id == eventId) = some e0) :
    (rsvpToEvent evs eventId memberId st t).1.find?
        (fun e => e.id == eventId) =
      some { e0 with attendees :=
        e0.attendees.filter (fun a => !(a.memberId == memberId))
          ++ [{ memberId := memberId, status := st, rsvpAt := t }] } := by
  unfold rsvpToEvent
  rw [h]
  show (updateFirst (fun e => e.id == eventId) _ evs).find?
    (fun e => e.id == eventId) = _
  rw [find?_updateFirst (fun e : CommunityEvent => e.id == eventId)
      (fun e => { e with attendees :=
        e.attendees.filter (fun a => !(a.memberId == memberId))
          ++ [{ memberId := memberId, status := st, rsvpAt := t }] })
      evs (fun a ha => ha), h]
  rfl

theorem filter_replace (l : List Attendee) (memberId : String) (rec : Attendee)
    (hrec : (rec.memberId == memberId) = true) :
    (l.filter (fun a => !(a.memberId == memberId)) ++ [rec]).filter
      (fun a => a.memberId == memberId) = [rec] := by
  rw [List.filter_append]
  have h1 : (l.filter (fun a => !(a.memberId == memberId))).filter
      (fun a => a.memberId == memberId) = [] := by
    rw [List.filter_filter]
    apply List.filter_eq_nil_iff.mpr
    intro a _
    simp
  rw [h1]
  simp [List.filter, hrec]

theorem rsvp_found_preserved (evs : List CommunityEvent)
    (eventId memberId : String) (st : RsvpStatus) (t : Int)
    (h : (evs.find? (fun e => e.id == eventId)).isSome) :
    ((rsvpToEvent evs eventId memberId st t).1.find?
      (fun e => e.id == eventId)).isSome := by
  obtain ⟨e0, he0⟩ := Option.isSome_iff_exists.mp h
  rw [rsvp_step evs eventId memberId st t e0 he0]
  rfl

theorem runRsvps_found (eventId memberId : String)
    (calls : List (RsvpStatus × Int)) (evs : List CommunityEvent)
    (h : (evs.find? (fun e => e.id == eventId)).isSome) :
    ((runRsvps eventId memberId evs calls).find?
      (fun e => e.id == eventId)).isSome := by
  induction calls generalizing evs with
  | nil => exact h
  | cons c rest ih =>
    show ((runRsvps eventId memberId
      (rsvpToEvent evs eventId memberId c.1 c.2).1 rest).find?
        (fun e => e.id == eventId)).isSome
    exact ih _ (rsvp_found_preserved evs eventId memberId c.1 c.2 h)

/-- C6: `rsvpToEvent` on an unknown event returns false and changes
nothing; after any sequence of calls by the same member on a known
event, the attendees list holds exactly one record for that member and
it carries the status and time of the last call. -/
theorem rsvp_replace_semantics (events : List CommunityEvent)
    (eventId memberId : String) (status : RsvpStatus) (now : Int)
    (calls : List (RsvpStatus × Int)) :
    (events.find? (fun e => e.id == eventId) = none →
      rsvpToEvent events eventId memberId status now = (events, false)) ∧
    ((events.find? (fun e => e.id == eventId)).isSome →
      ∃ e, (runRsvps eventId memberId events
            (calls ++ [(status, now)])).find? (fun e => e.id == eventId) =
          some e ∧
        e.attendees.filter (fun a => a.memberId == memberId) =
          [{ memberId := memberId, status := status, rsvpAt := now }]) := by
  constructor
  · intro h
    unfold rsvpToEvent
    rw [h]
  · intro h
    have hmid := runRsvps_found eventId memberId calls events h
    obtain ⟨e0, he0⟩ := Option.isSome_iff_exists.mp hmid
    have hr : runRsvps eventId memberId events (calls ++ [(status, now)]) =
        (rsvpToEvent (runRsvps eventId memberId events calls)
          eventId memberId status now).1 := by
      unfold runRsvps
      rw [List.foldl_append]
      rfl
    refine ⟨{ e0 with attendees :=
        e0.attendees.filter (fun a => !(a.memberId == memberId))
          ++ [{ memberId := memberId, status := status, rsvpAt := now }] },
      ?_, ?_⟩
    · rw [hr]
      exact rsvp_step _ eventId memberId status now e0 he0
    · exact filter_replace e0.attendees memberId _ (by simp)

theorem rsvp_replace_semantics_witness :
    ∃ e, (runRsvps "event_0" "m1" events1
          ([(RsvpStatus.maybe, 1)] ++ [(RsvpStatus.attending, 3)])).find?
        (fun e => e.id == "event_0") = some e ∧
      e.attendees.filter (fun a => a.memberId == "m1") =
        [{ memberId := "m1", status := RsvpStatus.attending, rsvpAt := 3 }] :=
  (rsvp_replace_semantics events1 "event_0" "m1" RsvpStatus.attending 3
    [(RsvpStatus.maybe, 1)]).2 (by decide)

/-- C1: an accepted `voteOnConsensus` call returns true and stores the
item with the ballot recorded and `checkConsensus` applied; the status
`checkConsensus` computes on a voting item is exactly the resolution
rule stated in the specification (`claimStatus`); and once the status
left `voting`, every further call returns false and changes nothing. -/
theorem voteOnConsensus_resolution (items : List ConsensusItem)
    (itemId memberId : String) (vote : BallotChoice) (now : Int)
    (item : ConsensusItem)
    (hfind : items.find? (fun i => i.id == itemId) = some item) :
    (item.status = ConsensusStatus.voting →
      (voteOnConsensus items itemId memberId vote now).2 = true ∧
      checkConsensus
          { item with votes :=
              (addBallot (removePrevBallots memberId item.votes) vote
                { memberId := memberId, timestamp := now }) } now
        ∈ (voteOnConsensus items itemId memberId vote now).1) ∧
    (∀ it : ConsensusItem, it.status = ConsensusStatus.voting →
      (checkConsensus it now).status =
        claimStatus it.status it.votes it.consensusThreshold it.votingEnds
          now) ∧
    (item.status ≠ ConsensusStatus.voting →
      voteOnConsensus items itemId memberId vote now = (items, false)) := by
  have hval : item.status = ConsensusStatus.voting →
      voteOnConsensus items itemId memberId vote now =
        (updateFirst (fun i => i.id == itemId)
          (fun i => checkConsensus
            { i with votes :=
                (addBallot (removePrevBallots memberId i.votes) vote
                  { memberId := memberId, timestamp := now }) } now)
          items, true) := by
    intro hv
    unfold voteOnConsensus
    rw [hfind]
    show (if item.status ≠ ConsensusStatus.voting then (items, false)
      else _) = _
    rw [if_neg (by simp [hv])]
  refine ⟨?_, ?_, ?_⟩
  · intro hv
    rw [hval hv]
    refine ⟨rfl, ?_⟩
    exact updateFirst_mem_of_find? (fun i => i.id == itemId)
      (fun i => checkConsensus
        { i with votes :=
            (addBallot (removePrevBallots memberId i.votes) vote
              { memberId := memberId, timestamp := now }) } now)
      items item hfind
  · intro it hv
    unfold checkConsensus claimStatus
    by_cases h0 : 0 < totalVotes it.votes
    · rw [if_pos h0, if_neg (by omega : ¬ totalVotes it.votes = 0)]
      by_cases h1 : it.consensusThreshold ≤
          ((it.votes.support.length : ℚ) / (totalVotes it.votes : ℚ))
      · rw [if_pos h1, if_pos h1]
      · rw [if_neg h1, if_neg h1]
        by_cases h2 : it.votingEnds < now
        · rw [if_pos h2, if_pos h2]
        · rw [if_neg h2, if_neg h2]
          exact hv

    · rw [if_neg h0, if_pos (by omega : totalVotes it.votes = 0)]
  · intro hv
    unfold voteOnConsensus
    rw [hfind]
    show (if item.status ≠ ConsensusStatus.voting then (items, false)
      else _) = (items, false)
    rw [if_pos hv]

theorem voteOnConsensus_resolution_witness :
    (voteOnConsensus consItems1 "consensus_0" "m1" BallotChoice.support
      5).2 = true :=
  ((voteOnConsensus_resolution consItems1 "consensus_0" "m1"
    BallotChoice.support 5 consItem1 (by rfl)).1 (by rfl)).1

theorem nodup_append_singleton {α : Type} (l : List α) (u : α)
    (h : l.Nodup) (hu : u ∉ l) : (l ++ [u]).Nodup := by
  rw [List.nodup_append]
  refine ⟨h, List.nodup_singleton u, ?_⟩
  intro a ha hb
  rw [List.mem_singleton] at hb
  subst hb
  exact hu ha

theorem mapGet_wf {α : Type} (P : α → Prop) (m : List (String × α))
    (k : String) (v : α) (hm : ∀ e ∈ m, P e.2) (h : mapGet m k = some v) :
    P v := by
  unfold mapGet at h
  rcases Option.map_eq_some'.mp h with ⟨e, he, hev⟩
  rw [← hev]
  exact hm e (List.mem_of_find?_eq_some he)

theorem removePollVote_wf (userId : String) (o : PollOption)
    (h1 : o.votes = (o.voters.length : Int)) (h2 : o.voters.Nodup) :
    (removePollVote userId o).votes =
      ((removePollVote userId o).voters.length : Int) ∧
    (removePollVote userId o).voters.Nodup ∧
    userId ∉ (removePollVote userId o).voters := by
  unfold removePollVote
  by_cases hm : userId ∈ o.voters
  · rw [if_pos hm]
    refine ⟨?_, h2.erase userId, h2.not_mem_erase⟩
    show o.votes - 1 = (((o.voters.erase userId)).length : Int)
    rw [List.length_erase_of_mem hm]
    have hpos := List.length_pos_of_mem hm
    omega
  · rw [if_neg hm]
    exact ⟨h1, h2, hm⟩

theorem pollOption_push_wf (userId : String) (o : PollOption)
    (h1 : o.votes = (o.voters.length : Int)) (h2 : o.voters.Nodup)
    (h3 : userId ∉ o.voters) :
    o.votes + 1 = (((o.voters ++ [userId])).length : Int) ∧
    (o.voters ++ [userId]).Nodup := by
  constructor
  · rw [List.length_append]
    simp only [List.length_singleton]
    omega
  · exact nodup_append_singleton _ _ h2 h3

theorem voteOnPoll_wf (d : DiscordState) (pollId : String) (i : Int)
    (userId : String) (h : storeWellFormed d) :
    storeWellFormed (voteResultStore (voteOnPoll d pollId i userId)) := by
  unfold voteOnPoll
  cases hg : mapGet d.polls pollId with
  | none => exact h
  | some poll =>
    have hpoll : pollWellFormed poll := mapGet_wf pollWellFormed d.polls pollId poll h hg
    have hcleared : ∀ o ∈ poll.options.map (removePollVote userId),
        (o.votes = (o.voters.length : Int) ∧ o.voters.Nodup) ∧
          userId ∉ o.voters := by
      intro o ho
      rcases List.mem_map.mp ho with ⟨a, ha, rfl⟩
      obtain ⟨ha1, ha2⟩ := hpoll a ha
      obtain ⟨w1, w2, w3⟩ := removePollVote_wf userId a ha1 ha2
      exact ⟨⟨w1, w2⟩, w3⟩
    show storeWellFormed (voteResultStore
      (if poll.active = false ∨ (poll.options.length : Int) ≤ i then
        VoteOutcome.ret d false
      else _))
    by_cases hb : poll.active = false ∨ (poll.options.length : Int) ≤ i
    · rw [if_pos hb]
      exact h
    · rw [if_neg hb]
      by_cases hi : 0 ≤ i
      · rw [if_pos hi]
        intro e he
        refine mapSet_forall pollWellFormed d.polls pollId _ h ?_ e he
        intro o ho
        rcases updateAt_mem _ _ _ o ho with h1 | ⟨a, ha, rfl⟩
        · exact (hcleared o h1).1
        · obtain ⟨⟨a1, a2⟩, a3⟩ := hcleared a ha
          exact pollOption_push_wf userId a a1 a2 a3
      · rw [if_neg hi]
        intro e he
        refine mapSet_forall pollWellFormed d.polls pollId _ h ?_ e he
        intro o ho
        exact (hcleared o ho).1

theorem createPoll_wf (d : DiscordState) (channelId : String)
    (pollData : PollData) (now : Int) (rand : String)
    (h : storeWellFormed d) :
    storeWellFormed (createPoll d channelId pollData now rand).1 := by
  have hp : (createPoll d channelId pollData now rand).1.polls =
      mapSet d.polls ("poll_" ++ toString now)
        { id := "poll_" ++ toString now
          channelId := channelId
          question := pollData.question
          options := pollData.options.map (fun option =>
            { text := option, votes := 0, voters := [] })
          createdBy := pollData.author
          createdAt := now
          endsAt := now + numOr pollData.duration 86400000
          active := true } := by
    show (addInput _ _ _ _ _).1.polls = _
    rw [addInput_polls]
  intro e he
  rw [hp] at he
  refine mapSet_forall pollWellFormed d.polls _ _ h ?_ e he
  intro o ho
  rcases List.mem_map.mp ho with ⟨a, _, rfl⟩
  exact ⟨rfl, List.nodup_nil⟩

/-- C10: starting from a well-formed store (the fresh ledger in
particular), any sequence of `createPoll` and `voteOnPoll` operations
keeps every vote counter equal to the length of its voters list and
every voters list free of duplicates. -/
theorem poll_vote_counter_consistency (d : DiscordState) (ops : List LedgerOp)
    (h : storeWellFormed d) :
    storeWellFormed (ops.foldl applyOp d) ∧
    storeWellFormed initialDiscordState := by
  constructor
  · induction ops generalizing d with
    | nil => exact h
    | cons op rest ih =>
      rw [List.foldl_cons]
      apply ih
      cases op with
      | create channelId pollData now rand =>
        exact createPoll_wf d channelId pollData now rand h
      | vote pollId i userId =>
        exact voteOnPoll_wf d pollId i userId h
  · intro e he
    simp [initialDiscordState] at he

theorem poll_vote_counter_consistency_witness :
    storeWellFormed
      ([LedgerOp.create "the-keep"
          { question := "Q", options := ["A", "B"], author := "u0",
            duration := none } 100 "r",
        LedgerOp.vote "poll_100" 0 "u1"].foldl applyOp initialDiscordState) :=
  (poll_vote_counter_consistency initialDiscordState
    [LedgerOp.create "the-keep"
        { question := "Q", options := ["A", "B"], author := "u0",
          duration := none } 100 "r",
      LedgerOp.vote "poll_100" 0 "u1"] (by decide)).1

theorem removePollVote_base (userId : String) (a : PollOption)
    (h : (a.voters = [] ∧ a.votes = 0) ∨ (a.voters = [userId] ∧ a.votes = 1)) :
    (removePollVote userId a).voters = [] ∧
    (removePollVote userId a).votes = 0 := by
  unfold removePollVote
  rcases h with ⟨hv, hn⟩ | ⟨hv, hn⟩
  · rw [if_neg (by simp [hv])]
    exact ⟨hv, hn⟩
  · rw [if_pos (by simp [hv])]
    constructor
    · show a.voters.erase userId = []
      rw [hv]
      simp
    · show a.votes - 1 = 0
      rw [hn]
      rfl

theorem voteOnPoll_nat_step (d : DiscordState) (pollId userId : String)
    (i : Nat) (voted : Bool)
    (h : pollSolo d pollId userId (if voted then 1 else 0)) :
    ∃ d1 b, voteOnPoll d pollId (i : Int) userId = VoteOutcome.ret d1 b ∧
      pollSolo d1 pollId userId (if (voted || b) then 1 else 0) := by
  obtain ⟨p, hp, hopts, hcount⟩ := h
  by_cases hb : p.active = false ∨ (p.options.length : Int) ≤ (i : Int)
  · refine ⟨d, false, ?_, ?_⟩
    · unfold voteOnPoll
      rw [hp]
      show (if p.active = false ∨ (p.options.length : Int) ≤ (i : Int)
        then VoteOutcome.ret d false else _) = _
      rw [if_pos hb]
    · rw [Bool.or_false]
      exact ⟨p, hp, hopts, hcount⟩
  · have hlt : i < p.options.length := by
      push_neg at hb
      omega
    have hbase : ∀ o ∈ p.options.map (removePollVote userId),
        o.voters = [] ∧ o.votes = 0 := by
      intro o ho
      rcases List.mem_map.mp ho with ⟨a, ha, rfl⟩
      exact removePollVote_base userId a (hopts a ha)
    refine ⟨{ d with polls :=
        (mapSet d.polls pollId
          { p with options :=
              (updateAt
                (fun o =>
                  { o with
                      votes := o.votes + 1
                      voters := o.voters ++ [userId] })
                i
                (p.options.map (removePollVote userId))) }) },
      true, ?_, ?_⟩
    · unfold voteOnPoll
      rw [hp]
      show (if p.active = false ∨ (p.options.length : Int) ≤ (i : Int)
        then VoteOutcome.ret d false else _) = _
      rw [if_neg hb, if_pos (by omega : (0 : Int) ≤ (i : Int))]
      rfl
    · rw [Bool.or_true]
      refine ⟨_, mapGet_mapSet _ _ _, ?_, ?_⟩
      · intro o ho
        rcases updateAt_mem _ _ _ o ho with h1 | ⟨a, ha, rfl⟩
        · exact Or.inl (hbase o h1)
        · right
          obtain ⟨hv, hn⟩ := hbase a ha
          constructor
          · show a.voters ++ [userId] = [userId]
            rw [hv]
            rfl
          · show a.votes + 1 = 1
            rw [hn]
            omega
      · show (updateAt _ i (p.options.map (removePollVote userId))).countP
          (fun o => decide (userId ∈ o.voters)) = 1
        apply countP_updateAt
        · intro o ho
          simp [(hbase o ho).1]
        · rw [List.length_map]
          exact hlt
        · intro a _
          simp

theorem runVotes_solo (pollId userId : String) (is : List Nat)
    (d : DiscordState) (voted : Bool)
    (h : pollSolo d pollId userId (if voted then 1 else 0)) :
    pollSolo (runVotes pollId userId (is.map (fun n : Nat => (n : Int))) d).1
      pollId userId
      (if (voted || decide ((runVotes pollId userId
          (is.map (fun n : Nat => (n : Int))) d).2 ≠ 0)) then 1 else 0) := by
  induction is generalizing d voted with
  | nil => simpa [runVotes] using h
  | cons i rest ih =>
    obtain ⟨d1, b, heq, h1⟩ := voteOnPoll_nat_step d pollId userId i voted h
    have hrw : runVotes pollId userId
        ((i :: rest).map (fun n : Nat => (n : Int))) d =
        ((runVotes pollId userId (rest.map (fun n : Nat => (n : Int))) d1).1,
         (if b then 1 else 0) +
           (runVotes pollId userId (rest.map (fun n : Nat => (n : Int))) d1).2) := by
      rw [List.map_cons]
      simp only [runVotes]
      rw [heq]
    rw [hrw]
    have hrec := ih d1 (voted || b) h1
    have hflag : (voted || decide ((if b then (1 : Nat) else 0) +
        (runVotes pollId userId (rest.map (fun n : Nat => (n : Int))) d1).2 ≠ 0)) =
        ((voted || b) || decide ((runVotes pollId userId
          (rest.map (fun n : Nat => (n : Int))) d1).2 ≠ 0)) := by
      cases b with
      | false => simp
      | true =>
        simp only [if_true, Bool.or_true, Bool.true_or]
        rw [Bool.or_eq_true]
        right
        rw [decide_eq_true_eq]
        omega
    rw [hflag]
    exact hrec

theorem votes_sum_eq_countP (userId : String) (opts : List PollOption)
    (h : ∀ o ∈ opts, (o.voters = [] ∧ o.votes = 0) ∨
      (o.voters = [userId] ∧ o.votes = 1)) :
    (opts.map PollOption.votes).sum =
      (opts.countP (fun o => decide (userId ∈ o.voters)) : Int) := by
  induction opts with
  | nil => simp
  | cons a t ih =>
    have ht := ih (fun o ho => h o (List.mem_cons_of_mem a ho))
    rcases h a (List.mem_cons_self a t) with ⟨hv, hn⟩ | ⟨hv, hn⟩
    · rw [List.map_cons, List.sum_cons, List.countP_cons, hn, hv, ht]
      simp
    · rw [List.map_cons, List.sum_cons, List.countP_cons, hn, hv, ht]
      simp
      ring

/-- C2 counterexample: the claim covers any sequence of `voteOnPoll`
calls by one user. On the fresh two-option poll, the sequence of option
indices [0, -1] casts one valid vote (the success count is 1), but the
second call passes the length guard, runs the removal pass that erases
the ballot just cast, and only then throws — so the final total vote
count is 0, not 1. -/
theorem voteOnPoll_single_user_counterexample :
    (runVotes "poll_100" "u1" [0, -1] pollStore1).2 = 1 ∧
    (mapGet (runVotes "poll_100" "u1" [0, -1] pollStore1).1.polls
        "poll_100").map (fun p => (p.options.map PollOption.votes).sum) =
      some 0 ∧
    ¬ (mapGet (runVotes "poll_100" "u1" [0, -1] pollStore1).1.polls
        "poll_100").map (fun p => (p.options.map PollOption.votes).sum) =
      some 1 := by
  refine ⟨by decide, by decide, by decide⟩

/-- C2 amended: restricted to sequences of `voteOnPoll` calls with
non-negative option indices — the calls that return rather than throw.
Starting from a fresh poll, such a sequence by one user leaves the total
vote count at 1 exactly when at least one call succeeded, the user voted
in at most one option, and in the concrete two-option scenario the
second vote moves the ballot instead of duplicating it. -/
theorem voteOnPoll_single_user :
    (∀ (d : DiscordState) (pollId userId : String) (p : Poll)
      (is : List Nat),
      mapGet d.polls pollId = some p →
      (∀ o ∈ p.options, o.voters = [] ∧ o.votes = 0) →
      ∃ p1, mapGet (runVotes pollId userId
          (is.map (fun n : Nat => (n : Int))) d).1.polls pollId = some p1 ∧
        (p1.options.map PollOption.votes).sum =
          (if (runVotes pollId userId (is.map (fun n : Nat => (n : Int))) d).2 = 0
            then 0 else 1) ∧
        p1.options.countP (fun o => decide (userId ∈ o.voters)) ≤ 1) ∧
    ((mapGet pollStore2.polls "poll_100").map Poll.options =
        some [{ text := "A", votes := 1, voters := ["u1"] },
              { text := "B", votes := 0, voters := [] }] ∧
     voteResultFlag (voteOnPoll pollStore1 "poll_100" 0 "u1") = some true ∧
     (mapGet pollStore3.polls "poll_100").map Poll.options =
        some [{ text := "A", votes := 0, voters := [] },
              { text := "B", votes := 1, voters := ["u1"] }] ∧
     voteResultFlag (voteOnPoll pollStore2 "poll_100" 1 "u1") = some true) := by
  constructor
  · intro d pollId userId p is hp hfresh
    have h0 : pollSolo d pollId userId (if false then 1 else 0) := by
      refine ⟨p, hp, fun o ho => Or.inl (hfresh o ho), ?_⟩
      show p.options.countP (fun o => decide (userId ∈ o.voters)) = 0
      rw [List.countP_eq_zero]
      intro o ho
      simp [(hfresh o ho).1]
    obtain ⟨p1, hp1, hopts, hcount⟩ := runVotes_solo pollId userId is d false h0
    rw [Bool.false_or] at hcount
    refine ⟨p1, hp1, ?_, ?_⟩
    · rw [votes_sum_eq_countP userId _ hopts, hcount]
      by_cases hk : (runVotes pollId userId
          (is.map (fun n : Nat => (n : Int))) d).2 = 0
      · simp [hk]
      · simp [hk]
    · rw [hcount]
      split <;> omega
  · exact ⟨by decide, by decide, by decide, by decide⟩

theorem voteOnPoll_single_user_witness :
    ∃ p1, mapGet (runVotes "poll_100" "u1"
        ([0, 1].map (fun n : Nat => (n : Int))) pollStore1).1.polls "poll_100" =
        some p1 ∧
      (p1.options.map PollOption.votes).sum =
        (if (runVotes "poll_100" "u1"
            ([0, 1].map (fun n : Nat => (n : Int))) pollStore1).2 = 0
          then 0 else 1) ∧
      p1.options.countP (fun o => decide ("u1" ∈ o.voters)) ≤ 1 :=
  voteOnPoll_single_user.1 pollStore1 "poll_100" "u1"
    { id := "poll_100", channelId := "the-keep", question := "Q",
      options := [{ text := "A", votes := 0, voters := [] },
                  { text := "B", votes := 0, voters := [] }],
      createdBy := "u0", createdAt := 100, endsAt := 86400100,
      active := true }
    [0, 1] (by decide) (by decide)

end Underdust
